import Mathlib

/-!
# Verification of the notification fan-out hub of the bus-transit backend

This file gives a shallow embedding, in Lean 4, of the real-time
notification subsystem of `src/server.js` together with the notification
creation and read-marking endpoints, and proves the testable properties
stated for them.

The JavaScript program is single-process and event-driven: all hub
operations (`createNotificationChannel`, the SSE open/close handlers,
`broadcastToUser`, the shutdown handler) run to completion on one logical
thread, so each is modelled as a pure state transformer on an explicit
`HubState`.  JS `Map`s become association lists, JS `Set`s become
duplicate-free lists, and upstream subscription handles are numbered by a
monotone counter so that handle identity (freshness of a re-created
subscription) is observable.  Writes to SSE response objects are collected
into lists of `(connection, event)` pairs; a write failure is modelled by
an oracle `wfail`, and the `try { res.write } catch` in the source means
the attempt list never depends on the oracle.
-/

/-- An SSE event as written by the server to a client connection. -/
inductive SseEvent where
  | ready (userId : String)
  | insert (data : String)
  | update (data old : String)
  | del (data : String)
deriving DecidableEq, Repr

/-- The supabase channel object stored in `notificationChannels`:
`subId` is the identity of the upstream change-feed subscription handle,
`filterRecipient` is the `userId` captured by the three `postgres_changes`
handlers (both as the `recipient_id=eq.userId` filter and as the target of
`broadcastToUser`). -/
structure Channel where
  subId : Nat
  filterRecipient : String
deriving DecidableEq, Repr

/-- The hub's mutable global state in `server.js`:
`sseClientsByUser` (userId -> Set of response objects, here connection
ids), `notificationChannels` (userId -> supabase channel), plus a counter
`nextSub` generating fresh subscription handles and the log `unsubscribed`
of handles on which `unsubscribe()` has been called. -/
structure HubState where
  sseClientsByUser : List (String × List Nat)
  notificationChannels : List (String × Channel)
  nextSub : Nat
  unsubscribed : List Nat
deriving DecidableEq, Repr

/-- The empty hub state at process start: both maps empty. -/
def HubState.init : HubState :=
  { sseClientsByUser := [], notificationChannels := [], nextSub := 0, unsubscribed := [] }

/-- `Map.get`: first value bound to `k` in an association list. -/
def lookupA {β : Type} (k : String) : List (String × β) → Option β
  | [] => none
  | (k', v) :: rest => if k' = k then some v else lookupA k rest

/-- `Map.set`: replace the binding of `k`, or append one. -/
def setEntry {β : Type} (k : String) (v : β) : List (String × β) → List (String × β)
  | [] => [(k, v)]
  | (k', v') :: rest => if k' = k then (k, v) :: rest else (k', v') :: setEntry k v rest

/-- `Map.delete`: drop every binding of `k`. -/
def removeEntry {β : Type} (k : String) : List (String × β) → List (String × β)
  | [] => []
  | (k', v') :: rest => if k' = k then removeEntry k rest else (k', v') :: removeEntry k rest

/-- The `Set` of connections currently registered for a recipient
(empty when the map has no entry). -/
def clientsOf (st : HubState) (userId : String) : List Nat :=
  (lookupA userId st.sseClientsByUser).getD []

/-- The channel currently stored for a recipient, if any. -/
def channelOf (st : HubState) (userId : String) : Option Channel :=
  lookupA userId st.notificationChannels

/-- `broadcastToUser` (server.js:514-525): look up the client set for the
user; if missing or empty, return; otherwise write the payload to every
client, catching write errors per client.  The returned list is the list
of attempted writes, one per registered connection. -/
def broadcastToUser (st : HubState) (userId : String) (event : SseEvent) :
    List (Nat × SseEvent) :=
  match lookupA userId st.sseClientsByUser with
  | none => []
  | some clients => if clients.isEmpty then [] else clients.map (fun c => (c, event))

/-- The writes among `attempts` that actually succeed, given the oracle
`wfail` telling which connections' `res.write` throws.  The `try/catch`
in `broadcastToUser` drops failing clients silently. -/
def successfulWrites (wfail : Nat → Bool) (attempts : List (Nat × SseEvent)) :
    List (Nat × SseEvent) :=
  attempts.filter (fun p => !wfail p.1)

/-- `createNotificationChannel` (server.js:528-573): if a channel for the
user already exists, return it; otherwise build a supabase channel whose
three `postgres_changes` handlers are filtered to
`recipient_id=eq.userId`, subscribe (allocating a fresh handle), store it
in the map and return it. -/
def createNotificationChannel (st : HubState) (userId : String) : HubState × Channel :=
  match lookupA userId st.notificationChannels with
  | some ch => (st, ch)
  | none =>
    let ch : Channel := { subId := st.nextSub, filterRecipient := userId }
    ({ st with
        notificationChannels := setEntry userId ch st.notificationChannels,
        nextSub := st.nextSub + 1 }, ch)

/-- `cleanupNotificationChannel` (server.js:576-583): if a channel exists
for the user, call `unsubscribe()` on it and delete the map entry. -/
def cleanupNotificationChannel (st : HubState) (userId : String) : HubState :=
  match lookupA userId st.notificationChannels with
  | some ch =>
    { st with
        notificationChannels := removeEntry userId st.notificationChannels,
        unsubscribed := st.unsubscribed ++ [ch.subId] }
  | none => st

/-- Outcome of a request to `GET /api/rt/notifications/:userId`: the hub
state afterwards, the HTTP status taken, the error body if any, the
writes performed on the response, and whether the heartbeat interval
timer was started. -/
structure OpenOutcome where
  state : HubState
  status : Nat
  errorMsg : Option String
  writes : List (Nat × SseEvent)
  heartbeatStarted : Bool
deriving DecidableEq, Repr

/-- The SSE open handler (server.js:586-613): reject an empty `userId`
with 400 before anything else; otherwise get-or-create the client set,
add the response to it, ensure the channel, write the `ready` event, and
start the heartbeat timer. -/
def rtNotificationsOpen (st : HubState) (userId : String) (conn : Nat) : OpenOutcome :=
  if userId = "" then
    { state := st, status := 400, errorMsg := some "User ID is required",
      writes := [], heartbeatStarted := false }
  else
    let clients := clientsOf st userId
    let clients' := if conn ∈ clients then clients else clients ++ [conn]
    let st1 := { st with sseClientsByUser := setEntry userId clients' st.sseClientsByUser }
    let st2 := (createNotificationChannel st1 userId).1
    { state := st2, status := 200, errorMsg := none,
      writes := [(conn, SseEvent.ready userId)], heartbeatStarted := true }

/-- The SSE close handler (server.js:616-628): remove the response from
the user's client set; if the set becomes empty, delete the set entry and
release the supabase channel. -/
def rtNotificationsClose (st : HubState) (userId : String) (conn : Nat) : HubState :=
  match lookupA userId st.sseClientsByUser with
  | none => st
  | some clients =>
    let clients' := clients.erase conn
    if clients'.isEmpty then
      cleanupNotificationChannel
        { st with sseClientsByUser := removeEntry userId st.sseClientsByUser } userId
    else
      { st with sseClientsByUser := setEntry userId clients' st.sseClientsByUser }

/-- A row-level change on the `notifications` table as pushed by the
upstream change feed (the payload rows are kept opaque as strings; only
the recipient routing matters to the hub). -/
inductive DbChange where
  | ins (recipient : String) (newRow : String)
  | upd (recipient : String) (newRow oldRow : String)
  | del (recipient : String) (oldRow : String)
deriving DecidableEq, Repr

/-- The `recipient_id` of the changed row, i.e. the value the upstream
filter `recipient_id=eq.X` matches against. -/
def DbChange.recipient : DbChange → String
  | .ins r _ => r
  | .upd r _ _ => r
  | .del r _ => r

/-- The event each `postgres_changes` handler passes to
`broadcastToUser` (server.js:542-567). -/
def channelEvent : DbChange → SseEvent
  | .ins _ n => SseEvent.insert n
  | .upd _ n o => SseEvent.update n o
  | .del _ o => SseEvent.del o

/-- Delivery of one upstream change: every subscribed channel whose
filter matches the row's `recipient_id` fires its handler, which
broadcasts to the captured `userId`.  Returns the attempted writes; the
hub state is not modified by delivery. -/
def dispatchChange (st : HubState) (chg : DbChange) : List (Nat × SseEvent) :=
  st.notificationChannels.foldr
    (fun e acc =>
      if e.2.filterRecipient = chg.recipient then
        broadcastToUser st e.2.filterRecipient (channelEvent chg) ++ acc
      else acc) []

/-- The SIGTERM/SIGINT handler body (server.js:3954-3980): iterate the
channel map and call `cleanupNotificationChannel` on every key, before
`server.close` lets the process exit. -/
def shutdownCleanup (st : HubState) : HubState :=
  (st.notificationChannels.map Prod.fst).foldl cleanupNotificationChannel st

/-- One externally triggered operation on the hub: an SSE stream opening
or the transport reporting its closure, a notification-list query from
the client or employee polling endpoints (each calls
`createNotificationChannel`), an admin send calling
`createNotificationChannel` for every recipient after the insert, an
upstream change-feed event, or a termination signal. -/
inductive HubOp where
  | rtOpen (userId : String) (conn : Nat)
  | rtClose (userId : String) (conn : Nat)
  | clientList (userId : String)
  | employeeList (employeeId : String)
  | adminSend (recipients : List String)
  | dbChange (chg : DbChange)
  | sigterm
deriving DecidableEq, Repr

/-- State effect of one operation.  The list endpoints reject an empty
id with 400 before touching the hub; delivery of an upstream event does
not modify the registries; SIGTERM runs the cleanup loop. -/
def stepState (st : HubState) : HubOp → HubState
  | .rtOpen u c => (rtNotificationsOpen st u c).state
  | .rtClose u c => rtNotificationsClose st u c
  | .clientList u => if u = "" then st else (createNotificationChannel st u).1
  | .employeeList e => if e = "" then st else (createNotificationChannel st e).1
  | .adminSend rs => rs.foldl (fun s r => (createNotificationChannel s r).1) st
  | .dbChange _ => st
  | .sigterm => shutdownCleanup st

/-- SSE writes performed by one operation. -/
def stepWrites (st : HubState) : HubOp → List (Nat × SseEvent)
  | .rtOpen u c => (rtNotificationsOpen st u c).writes
  | .dbChange chg => dispatchChange st chg
  | _ => []

/-- Run a sequence of operations. -/
def runTrace (st : HubState) : List HubOp → HubState
  | [] => st
  | op :: ops => runTrace (stepState st op) ops

/-- The chronological write log of a sequence of operations. -/
def traceWrites (st : HubState) : List HubOp → List (Nat × SseEvent)
  | [] => []
  | op :: ops => stepWrites st op ++ traceWrites (stepState st op) ops

/-- The events written to one particular connection, in order. -/
def writesTo (conn : Nat) (ws : List (Nat × SseEvent)) : List SseEvent :=
  (ws.filter (fun p => p.1 = conn)).map Prod.snd

/-- A sequence of stream open/close operations for the one recipient `r`
that the transport layer can actually produce: `regs` is the set of
connections currently open; every open uses a connection not currently
open, and every close is the disconnect of a currently open
connection. -/
def regTraceValid (r : String) (regs : List Nat) : List HubOp → Bool
  | [] => true
  | .rtOpen u c :: ops =>
    u = r && !(regs.contains c) && regTraceValid r (regs ++ [c]) ops
  | .rtClose u c :: ops =>
    u = r && regs.contains c && regTraceValid r (regs.erase c) ops
  | _ :: _ => false

/-- Number of `rtOpen` operations for `r` (registrations). -/
def countOpens (r : String) : List HubOp → Nat
  | [] => 0
  | .rtOpen u _ :: ops => (if u = r then 1 else 0) + countOpens r ops
  | _ :: ops => countOpens r ops

/-- Number of `rtClose` operations for `r` (unregistrations). -/
def countCloses (r : String) : List HubOp → Nat
  | [] => 0
  | .rtClose u _ :: ops => (if u = r then 1 else 0) + countCloses r ops
  | _ :: ops => countCloses r ops


/-- A row of the `notifications` table (schema in NOTIFICATION_API.md):
`priority` is constrained to low/normal/high/urgent with default
`'normal'`, `is_read` defaults to false, `read_at` is nullable. -/
structure NotificationRow where
  id : Nat
  recipient_id : String
  type : String
  title : Option String
  message : String
  is_read : Bool
  priority : String
  read_at : Option Nat
  created_at : Nat
deriving DecidableEq, Repr

/-- A row object passed to `.insert` by one of the creation endpoints:
`none` in `is_read` / `priority` / `title` means the field is absent from
the object literal and the column default applies. -/
structure NotificationPayload where
  recipient_id : String
  type : String
  title : Option String
  message : String
  is_read : Option Bool
  priority : Option String
deriving DecidableEq, Repr

/-- The row the store produces from an inserted payload, applying the
schema defaults `is_read boolean DEFAULT false` and
`priority text DEFAULT 'normal'`. -/
def insertRow (p : NotificationPayload) (id : Nat) (now : Nat) : NotificationRow :=
  { id := id, recipient_id := p.recipient_id, type := p.type, title := p.title,
    message := p.message, is_read := p.is_read.getD false,
    priority := p.priority.getD "normal", read_at := none, created_at := now }

/-- The allowed notification types (server.js:1250). -/
def allowedTypes : List String :=
  ["delay", "route_change", "traffic", "general", "announcement", "maintenance"]

/-- The priority expression used by the admin send endpoints
(server.js:1268 and 1325). -/
def derivedPriority (type : String) : String :=
  if type = "maintenance" || type = "delay" then "high" else "normal"

/-- `title: title || null` — an absent or empty title becomes null. -/
def titleOrNull (title : Option String) : Option String :=
  match title with
  | some t => if t = "" then none else some t
  | none => none

/-- Payloads built by `POST /api/admin/notification`
(server.js:1262-1269), one per recipient. -/
def adminNotificationPayloads (recipients : List String) (type message : String)
    (title : Option String) : List NotificationPayload :=
  recipients.map (fun rid =>
    { recipient_id := rid, type := type, message := message,
      title := titleOrNull title, is_read := some false,
      priority := some (derivedPriority type) })

/-- `POST /api/admin/notification` (server.js:1238-1290): 400 when
`type`/`message` are missing or the type is not allowed, otherwise the
payloads inserted. -/
def adminSendNotification (recipients : List String) (type message : String)
    (title : Option String) : Option (List NotificationPayload) :=
  if type = "" || message = "" then none
  else if !(allowedTypes.contains type) then none
  else some (adminNotificationPayloads recipients type message title)

/-- `POST /api/admin/notification/broadcast` (server.js:1293-1347):
payloads built for every active user of the role (server.js:1319-1326);
the object literal is identical to the single-send one. -/
def broadcastNotificationPayloads (userIds : List String) (type message : String)
    (title : Option String) : List NotificationPayload :=
  userIds.map (fun uid =>
    { recipient_id := uid, type := type, message := message,
      title := titleOrNull title, is_read := some false,
      priority := some (derivedPriority type) })

/-- Payloads built by `PUT /api/admin/booking/:id/confirm`
(server.js:1101-1126): a `general` notification for the client and, when
present, for the driver and conductor; neither `priority` nor `is_read`
nor `title` appear in the object literals. -/
def bookingConfirmPayloads (clientId : String) (driverId conductorId : Option String)
    (busNumber routeName passengerName : String) : List NotificationPayload :=
  ({ recipient_id := clientId, type := "general",
     message := "Your booking for bus " ++ busNumber ++ " (" ++ routeName
       ++ ") has been confirmed.",
     title := none, is_read := none, priority := none } :: []) ++
  (match driverId with
   | some d =>
     [{ recipient_id := d, type := "general",
        message := "New passenger: " ++ passengerName ++ " has booked a seat on your bus.",
        title := none, is_read := none, priority := none }]
   | none => []) ++
  (match conductorId with
   | some c =>
     [{ recipient_id := c, type := "general",
        message := "New passenger: " ++ passengerName ++ " has booked a seat on your bus.",
        title := none, is_read := none, priority := none }]
   | none => [])

/-- Payload built by `PUT /api/admin/discount-verification/:id`
(server.js:1882-1887): a `general` notification for the requesting user;
`priority` and `is_read` are absent from the object literal. -/
def discountDecisionPayload (userId : String) (vtype status rejectionReason : String) :
    NotificationPayload :=
  { recipient_id := userId, type := "general",
    title := some "Discount Verification Update",
    message := "Your discount verification for " ++ vtype ++ " has been " ++ status ++ "."
      ++ (if status = "rejected" then " Reason: " ++ rejectionReason else ""),
    is_read := none, priority := none }

/-- `PUT /api/client/notification/:id/read` (server.js:1547-1582):
400 without a `userId`; 404 unless a row with this id belongs to the
user; otherwise update `is_read`/`read_at` on the row matched by id
alone.  Returns the table afterwards and the HTTP status. -/
def markNotificationRead (db : List NotificationRow) (id : Nat) (userId : String)
    (now : Nat) : List NotificationRow × Nat :=
  if userId = "" then (db, 400)
  else if db.any (fun r => r.id = id && r.recipient_id = userId) then
    (db.map (fun r =>
      if r.id = id then { r with is_read := true, read_at := some now } else r), 200)
  else (db, 404)

/-- `PUT /api/client/notifications/read-all` (server.js:1585-1612):
400 without a `userId`; otherwise update `is_read`/`read_at` on every row
of the user that is still unread (`.eq('is_read', false)`). -/
def markAllNotificationsRead (db : List NotificationRow) (userId : String)
    (now : Nat) : List NotificationRow × Nat :=
  if userId = "" then (db, 400)
  else
    (db.map (fun r =>
      if r.recipient_id = userId && !r.is_read then
        { r with is_read := true, read_at := some now }
      else r), 200)

/-- Number of entries bound to one key (a JS `Map` always has at most
one; the association-list model makes that a well-formedness side
condition `(l.map Prod.fst).Nodup`). -/
def countKey {β : Type} (k : String) (l : List (String × β)) : Nat :=
  (l.filter (fun e => e.1 = k)).length

/-- An already-read notification of user `u1` whose `read_at` was set at
time 10 — the input on which the single mark-read endpoint overwrites
`read_at`. -/
def alreadyReadRow : NotificationRow :=
  { id := 1, recipient_id := "u1", type := "general", title := none,
    message := "m", is_read := true, priority := "normal",
    read_at := some 10, created_at := 0 }

/-- The evolution of the set of open connections along a trace (mirror
of what the transport layer tracks). -/
def simRegs (regs : List Nat) : List HubOp → List Nat
  | [] => regs
  | .rtOpen _ c :: ops => simRegs (regs ++ [c]) ops
  | .rtClose _ c :: ops => simRegs (regs.erase c) ops
  | _ :: ops => simRegs regs ops

/-- Invariant tying the hub state to the set `regs` of currently open
connections for recipient `r`: the registry entry exists exactly when
`regs` is non-empty and then holds `regs`; the channel exists exactly
when `regs` is non-empty; and every stored subscription handle was
allocated below the counter. -/
def RegInv (r : String) (regs : List Nat) (st : HubState) : Prop :=
  lookupA r st.sseClientsByUser = (if regs.isEmpty then none else some regs)
  ∧ ((channelOf st r).isSome ↔ regs ≠ [])
  ∧ ∀ ch, channelOf st r = some ch → ch.subId < st.nextSub

/-- A connection id not registered in any recipient's client set. -/
def ConnFresh (st : HubState) (conn : Nat) : Prop :=
  ∀ u, conn ∉ clientsOf st u

/-- The payload the admin single-send endpoint builds for recipient
`u1` and a maintenance notification with message `m` and no title. -/
def maintenancePayload : NotificationPayload :=
  { recipient_id := "u1", type := "maintenance", title := none, message := "m",
    is_read := some false, priority := some "high" }

/-- A hub state with two clients registered for `u1` and none for
anyone else. -/
def fanoutState : HubState :=
  { sseClientsByUser := [("u1", [5, 6])], notificationChannels := [],
    nextSub := 0, unsubscribed := [] }

/-- A hub state where connection 5 watches `u1` and connection 7
watches `u2`, each recipient with its own channel. -/
def isolationState : HubState :=
  { sseClientsByUser := [("u1", [5]), ("u2", [7])],
    notificationChannels :=
      [("u1", { subId := 0, filterRecipient := "u1" }),
       ("u2", { subId := 1, filterRecipient := "u2" })],
    nextSub := 2, unsubscribed := [] }

/-- A hub state holding one live channel for `u1`. -/
def shutdownState : HubState :=
  { sseClientsByUser := [], 
    notificationChannels := [("u1", { subId := 0, filterRecipient := "u1" })],
    nextSub := 1, unsubscribed := [] }

/-! ## Association-list lemmas -/

theorem lookupA_setEntry_self {β : Type} (k : String) (v : β) (l : List (String × β)) :
    lookupA k (setEntry k v l) = some v := by
  induction l with
  | nil => simp [setEntry, lookupA]
  | cons hd tl ih =>
    obtain ⟨k', v'⟩ := hd
    by_cases h : k' = k
    · simp [setEntry, h, lookupA]
    · simp [setEntry, h, lookupA, ih]

theorem lookupA_setEntry_ne {β : Type} {k k' : String} (v : β) (l : List (String × β))
    (h : k ≠ k') : lookupA k (setEntry k' v l) = lookupA k l := by
  induction l with
  | nil => simp [setEntry, lookupA, Ne.symm h]
  | cons hd tl ih =>
    obtain ⟨k'', v''⟩ := hd
    by_cases h2 : k'' = k'
    · subst h2
      simp [setEntry, lookupA, Ne.symm h]
    · by_cases h3 : k'' = k <;> simp [setEntry, lookupA, h2, h3, h, Ne.symm h, ih]

theorem lookupA_removeEntry_self {β : Type} (k : String) (l : List (String × β)) :
    lookupA k (removeEntry k l) = none := by
  induction l with
  | nil => simp [removeEntry, lookupA]
  | cons hd tl ih =>
    obtain ⟨k', v'⟩ := hd
    by_cases h : k' = k
    · simp [removeEntry, h, ih]
    · simp [removeEntry, h, lookupA, ih]

theorem lookupA_removeEntry_ne {β : Type} {k k' : String} (l : List (String × β))
    (h : k ≠ k') : lookupA k (removeEntry k' l) = lookupA k l := by
  induction l with
  | nil => simp [removeEntry, lookupA]
  | cons hd tl ih =>
    obtain ⟨k'', v''⟩ := hd
    by_cases h2 : k'' = k'
    · subst h2
      simp [removeEntry, lookupA, Ne.symm h, ih]
    · by_cases h3 : k'' = k <;> simp [removeEntry, lookupA, h2, h3, h, Ne.symm h, ih]

theorem countKey_eq_zero_of_not_mem {β : Type} {k : String} {l : List (String × β)}
    (h : k ∉ l.map Prod.fst) : countKey k l = 0 := by
  induction l with
  | nil => simp [countKey]
  | cons hd tl ih =>
    obtain ⟨k', v'⟩ := hd
    simp only [List.map_cons, List.mem_cons, not_or] at h
    have hne : ¬ k' = k := fun hh => h.1 (hh ▸ rfl)
    simp only [countKey, List.filter_cons] at *
    simp [hne, ih h.2]

theorem countKey_setEntry {β : Type} (k : String) (v : β) (l : List (String × β))
    (h : (l.map Prod.fst).Nodup) : countKey k (setEntry k v l) = 1 := by
  induction l with
  | nil => simp [setEntry, countKey]
  | cons hd tl ih =>
    obtain ⟨k', v'⟩ := hd
    simp only [List.map_cons, List.nodup_cons] at h
    by_cases h2 : k' = k
    · subst h2
      have := countKey_eq_zero_of_not_mem (k := k') (l := tl) h.1
      simp only [setEntry, if_pos rfl, countKey, List.filter_cons] at *
      simp [this]
    · simp only [setEntry, if_neg h2, countKey, List.filter_cons]
      simpa [h2] using ih h.2

theorem countKey_of_lookupA {β : Type} {k : String} {v : β} {l : List (String × β)}
    (hl : lookupA k l = some v) (h : (l.map Prod.fst).Nodup) : countKey k l = 1 := by
  induction l with
  | nil => simp [lookupA] at hl
  | cons hd tl ih =>
    obtain ⟨k', v'⟩ := hd
    simp only [List.map_cons, List.nodup_cons] at h
    by_cases h2 : k' = k
    · subst h2
      have := countKey_eq_zero_of_not_mem (k := k') (l := tl) h.1
      simp only [countKey, List.filter_cons] at *
      simp [this]
    · simp only [lookupA, if_neg h2] at hl
      simp only [countKey, List.filter_cons]
      simpa [h2] using ih hl h.2

/-! ## Hub operation lemmas -/

theorem createNotificationChannel_of_some {st : HubState} {r : String} {ch : Channel}
    (h : channelOf st r = some ch) : createNotificationChannel st r = (st, ch) := by
  simp [createNotificationChannel, channelOf] at *
  simp [h]

theorem createNotificationChannel_of_none {st : HubState} {r : String}
    (h : channelOf st r = none) :
    createNotificationChannel st r =
      ({ st with
          notificationChannels :=
            setEntry r { subId := st.nextSub, filterRecipient := r } st.notificationChannels,
          nextSub := st.nextSub + 1 },
       { subId := st.nextSub, filterRecipient := r }) := by
  simp [createNotificationChannel, channelOf] at *
  simp [h]

theorem channelOf_create_self (st : HubState) (r : String) :
    channelOf (createNotificationChannel st r).1 r = some (createNotificationChannel st r).2 := by
  cases h : channelOf st r with
  | some ch => simp [createNotificationChannel_of_some h, h]
  | none =>
    simp [createNotificationChannel_of_none h, channelOf, lookupA_setEntry_self]

/-- C8: the SSE stream-open endpoint with an empty `userId` answers 400
with an explanatory message, leaves the hub state untouched (no
connection registered, no channel created), writes no event (no `ready`)
and starts no heartbeat timer. -/
theorem rtOpen_missing_userId_rejected (st : HubState) (conn : Nat) :
    rtNotificationsOpen st "" conn =
      { state := st, status := 400, errorMsg := some "User ID is required",
        writes := [], heartbeatStarted := false } := by
  simp [rtNotificationsOpen]

/-- C2: channel creation is idempotent.  The second of two successive
`createNotificationChannel` calls is a pure no-op returning the existing
channel and the unchanged state; after the first call the channel table
holds exactly one subscription for the recipient; the pair of calls
allocates at most one upstream subscription handle, and the second call
allocates none. -/
theorem createChannel_idempotent (st : HubState) (r : String)
    (hwf : (st.notificationChannels.map Prod.fst).Nodup) :
    createNotificationChannel (createNotificationChannel st r).1 r =
        createNotificationChannel st r
    ∧ countKey r (createNotificationChannel st r).1.notificationChannels = 1
    ∧ (createNotificationChannel st r).1.nextSub ≤ st.nextSub + 1
    ∧ (createNotificationChannel (createNotificationChannel st r).1 r).1.nextSub =
        (createNotificationChannel st r).1.nextSub := by
  have hsecond :
      createNotificationChannel (createNotificationChannel st r).1 r =
        createNotificationChannel st r := by
    have h1 := channelOf_create_self st r
    have := createNotificationChannel_of_some h1
    rw [this]
  refine ⟨hsecond, ?_, ?_, by rw [hsecond]⟩
  · cases h : channelOf st r with
    | some ch =>
      rw [createNotificationChannel_of_some h]
      exact countKey_of_lookupA h hwf
    | none =>
      rw [createNotificationChannel_of_none h]
      exact countKey_setEntry r _ _ hwf
  · cases h : channelOf st r with
    | some ch => rw [createNotificationChannel_of_some h]; simp
    | none => rw [createNotificationChannel_of_none h]

theorem broadcastToUser_eq_map {st : HubState} {r : String} {conns : List Nat}
    (h : lookupA r st.sseClientsByUser = some conns) (ev : SseEvent) :
    broadcastToUser st r ev = conns.map (fun c => (c, ev)) := by
  cases conns with
  | nil => simp [broadcastToUser, h]
  | cons c cs => simp [broadcastToUser, h]

theorem mem_broadcastToUser {st : HubState} {r : String} {c : Nat} {e ev : SseEvent}
    (h : (c, e) ∈ broadcastToUser st r ev) : c ∈ clientsOf st r ∧ e = ev := by
  unfold broadcastToUser at h
  cases hl : lookupA r st.sseClientsByUser with
  | none => simp [hl] at h
  | some conns =>
    rw [hl] at h
    by_cases he : conns.isEmpty
    · simp [he] at h
    · simp only [if_neg he, List.mem_map] at h
      obtain ⟨a, ha, hpair⟩ := h
      injection hpair with h1 h2
      subst h1
      exact ⟨by simp [clientsOf, hl, ha], h2.symm⟩

/-- Every attempted write produced by delivering an upstream change goes
to a connection registered for the change's recipient. -/
theorem mem_dispatchChange {st : HubState} {chg : DbChange} {c : Nat} {e : SseEvent}
    (h : (c, e) ∈ dispatchChange st chg) : c ∈ clientsOf st chg.recipient := by
  unfold dispatchChange at h
  generalize st.notificationChannels = l at h
  induction l with
  | nil => simp at h
  | cons hd tl ih =>
    simp only [List.foldr_cons] at h
    by_cases hf : hd.2.filterRecipient = chg.recipient
    · rw [if_pos hf, List.mem_append] at h
      cases h with
      | inl hmem =>
        have := mem_broadcastToUser hmem
        rw [hf] at this
        exact this.1
      | inr hmem => exact ih hmem
    · rw [if_neg hf] at h
      exact ih h

/-- C3: fan-out completeness and per-connection failure isolation.  With
the client set for recipient `r` holding the connections `conns` (N of
them), delivering an event attempts exactly one write per registered
connection, in registry order; the attempt list does not depend on which
writes fail; a failing connection is skipped for this event while every
non-failing connection still gets its write; and delivery (the
`dbChange` step) never modifies the hub state, so the failed connection
stays registered. -/
theorem fanout_completeness (st : HubState) (r : String) (conns : List Nat)
    (ev : SseEvent) (wfail : Nat → Bool)
    (h : lookupA r st.sseClientsByUser = some conns) :
    broadcastToUser st r ev = conns.map (fun c => (c, ev))
    ∧ (broadcastToUser st r ev).length = conns.length
    ∧ successfulWrites wfail (broadcastToUser st r ev) =
        (conns.filter (fun c => !wfail c)).map (fun c => (c, ev))
    ∧ (∀ c, c ∈ conns → (c, ev) ∈ broadcastToUser st r ev)
    ∧ (∀ c, c ∈ conns → wfail c = false →
        (c, ev) ∈ successfulWrites wfail (broadcastToUser st r ev))
    ∧ (∀ c, wfail c = true → (c, ev) ∉ successfulWrites wfail (broadcastToUser st r ev))
    ∧ (∀ chg : DbChange, stepState st (.dbChange chg) = st) := by
  have hb := broadcastToUser_eq_map h ev
  have hpair : ∀ l : List Nat,
      (l.map (fun c => (c, ev))).filter (fun p => !wfail p.1) =
        (l.filter (fun c => !wfail c)).map (fun c => (c, ev)) := by
    intro l
    induction l with
    | nil => simp
    | cons c cs ih =>
      by_cases hf : wfail c
      · simp [List.filter_cons, hf, ih]
      · simp only [Bool.not_eq_true] at hf
        simp [List.filter_cons, hf, ih]
  have hfilter : successfulWrites wfail (broadcastToUser st r ev) =
      (conns.filter (fun c => !wfail c)).map (fun c => (c, ev)) := by
    rw [hb]
    exact hpair conns
  refine ⟨hb, by rw [hb]; simp, hfilter, ?_, ?_, ?_, fun _ => rfl⟩
  · intro c hc
    rw [hb]
    exact List.mem_map.mpr ⟨c, hc, rfl⟩
  · intro c hc hfc
    rw [hfilter]
    exact List.mem_map.mpr ⟨c, List.mem_filter.mpr ⟨hc, by simp [hfc]⟩, rfl⟩
  · intro c hfc hmem
    rw [hfilter] at hmem
    obtain ⟨a, ha, hpair⟩ := List.mem_map.mp hmem
    obtain ⟨h1, _⟩ := Prod.mk.injEq .. ▸ hpair
    rw [h1] at ha
    have := (List.mem_filter.mp ha).2
    simp [hfc] at this

/-- C4: isolation across recipients.  An upstream change whose row
belongs to recipient `r1` never produces a write attempt on a connection
that is registered only for a different recipient `r2`: every channel
whose filter matches the change broadcasts to its own captured user, so
the attempts reach exactly the client set stored under `r1`. -/
theorem recipient_isolation (st : HubState) (r1 r2 : String) (conn : Nat)
    (chg : DbChange) (hrec : chg.recipient = r1) (_hne : r2 ≠ r1)
    (_hreg : conn ∈ clientsOf st r2) (hnot : conn ∉ clientsOf st r1) :
    ∀ ev : SseEvent, (conn, ev) ∉ dispatchChange st chg := by
  intro ev hmem
  exact hnot (hrec ▸ mem_dispatchChange hmem)

/-! ## Notification creation and read-marking -/

/-- C6: every notification row the program creates carries the derived
priority: "high" exactly when its type is `maintenance` or `delay`, and
"normal" otherwise — on every creation path.  The admin single/multi
send and the role broadcast compute the value explicitly; the booking
confirmation and discount-verification payloads omit the column, all
have type `general`, and the schema default `'normal'` coincides with
the derivation.  In particular a maintenance-type admin notification
gets `"high"`, and no path ever yields `"urgent"` or `"low"`. -/
theorem priority_derivation (rid now : Nat) :
    (∀ (recipients : List String) (type message : String) (title : Option String)
        (ps : List NotificationPayload) (p : NotificationPayload),
        adminSendNotification recipients type message title = some ps → p ∈ ps →
        (insertRow p rid now).priority = derivedPriority p.type)
    ∧ (∀ (userIds : List String) (type message : String) (title : Option String)
        (p : NotificationPayload),
        p ∈ broadcastNotificationPayloads userIds type message title →
        (insertRow p rid now).priority = derivedPriority p.type)
    ∧ (∀ (clientId : String) (driverId conductorId : Option String)
        (busNumber routeName passengerName : String) (p : NotificationPayload),
        p ∈ bookingConfirmPayloads clientId driverId conductorId
              busNumber routeName passengerName →
        (insertRow p rid now).priority = derivedPriority p.type)
    ∧ (∀ (userId vtype status rejectionReason : String),
        (insertRow (discountDecisionPayload userId vtype status rejectionReason) rid now).priority
          = derivedPriority
              (discountDecisionPayload userId vtype status rejectionReason).type)
    ∧ (∀ (recipients : List String) (message : String) (title : Option String)
        (ps : List NotificationPayload) (p : NotificationPayload),
        adminSendNotification recipients "maintenance" message title = some ps → p ∈ ps →
        (insertRow p rid now).priority = "high")
    ∧ (∀ type : String, derivedPriority type ≠ "urgent" ∧ derivedPriority type ≠ "low") := by
  have hadmin : ∀ (recipients : List String) (type message : String)
      (title : Option String) (ps : List NotificationPayload) (p : NotificationPayload),
      adminSendNotification recipients type message title = some ps → p ∈ ps →
      (insertRow p rid now).priority = derivedPriority p.type := by
    intro recipients type message title ps p hsend hp
    unfold adminSendNotification at hsend
    by_cases h1 : type = "" || message = ""
    · rw [if_pos h1] at hsend
      exact absurd hsend (by simp)
    · rw [if_neg h1] at hsend
      by_cases h2 : allowedTypes.contains type
      · rw [if_neg (by simpa using h2)] at hsend
        have hps := Option.some.inj hsend
        subst hps
        obtain ⟨a, -, hpa⟩ := List.mem_map.mp hp
        subst hpa
        simp [insertRow]
      · rw [if_pos (by simpa using h2)] at hsend
        exact absurd hsend (by simp)
  have hmaint : ∀ (recipients : List String) (message : String) (title : Option String)
      (ps : List NotificationPayload) (p : NotificationPayload),
      adminSendNotification recipients "maintenance" message title = some ps → p ∈ ps →
      (insertRow p rid now).priority = "high" := by
    intro recipients message title ps p hsend hp
    have hpri := hadmin recipients "maintenance" message title ps p hsend hp
    unfold adminSendNotification at hsend
    by_cases hm : message = ""
    · rw [if_pos (by simp [hm])] at hsend
      exact absurd hsend (by simp)
    · rw [if_neg (by simp [hm])] at hsend
      rw [if_neg (by simp [allowedTypes])] at hsend
      have hps := Option.some.inj hsend
      subst hps
      obtain ⟨a, -, hpa⟩ := List.mem_map.mp hp
      subst hpa
      rw [hpri]
      rfl
  refine ⟨hadmin, ?_, ?_, ?_, hmaint, ?_⟩
  · intro userIds type message title p hp
    unfold broadcastNotificationPayloads at hp
    obtain ⟨a, -, hpa⟩ := List.mem_map.mp hp
    subst hpa
    simp [insertRow]
  · intro clientId driverId conductorId busNumber routeName passengerName p hp
    have hgen : p.type = "general" ∧ p.priority = none := by
      unfold bookingConfirmPayloads at hp
      rcases List.mem_append.mp hp with hq | hq
      · rcases List.mem_append.mp hq with hq | hq
        · simp at hq
          subst hq
          exact ⟨rfl, rfl⟩
        · rcases driverId with _ | d
          · simp at hq
          · simp at hq
            subst hq
            exact ⟨rfl, rfl⟩
      · rcases conductorId with _ | c
        · simp at hq
        · simp at hq
          subst hq
          exact ⟨rfl, rfl⟩
    obtain ⟨htype, hpri⟩ := hgen
    simp [insertRow, hpri, htype, derivedPriority]
  · intro userId vtype status rejectionReason
    simp [insertRow, discountDecisionPayload, derivedPriority]
  · intro type
    unfold derivedPriority
    by_cases h : type = "maintenance" || type = "delay" <;> simp [h]

/-- C7 counterexample: `PUT /api/client/notification/:id/read` on the
already-read notification `alreadyReadRow` (read at time 10) at time 42
succeeds with 200 and rewrites `read_at` to 42 — the timestamp of an
already-read notification is NOT left unchanged, contradicting the
claim that `read_at` is set exactly once. -/
theorem readAt_overwritten_cex :
    alreadyReadRow.is_read = true
    ∧ alreadyReadRow.read_at = some 10
    ∧ (markNotificationRead [alreadyReadRow] 1 "u1" 42).2 = 200
    ∧ (markNotificationRead [alreadyReadRow] 1 "u1" 42).1.map NotificationRow.read_at
        = [some 42]
    ∧ (some 42 : Option Nat) ≠ some 10 := by
  refine ⟨rfl, rfl, ?_, ?_, by decide⟩ <;>
    simp [markNotificationRead, alreadyReadRow, List.any_cons]

/-- C7 amended: the bulk `read-all` operation updates only rows with
`is_read = false` (so an already-read row, its `read_at` included, is
left unchanged, and an unread row of the user transitions to read with
`read_at` set to the current time), but the single mark-read endpoint,
once the ownership check passes, sets `read_at` to the current time on
the row matched by id unconditionally — also when the row was already
read, overwriting its earlier timestamp. -/
theorem readAt_semantics (db : List NotificationRow) (u : String) (now : Nat)
    (nid i : Nat) (r : NotificationRow) (hu : u ≠ "")
    (hget : db[i]? = some r) :
    (r.is_read = true → (markAllNotificationsRead db u now).1[i]? = some r)
    ∧ (r.is_read = false → r.recipient_id = u →
        (markAllNotificationsRead db u now).1[i]? =
          some { r with is_read := true, read_at := some now })
    ∧ (db.any (fun q => q.id = nid && q.recipient_id = u) = true → r.id = nid →
        (markNotificationRead db nid u now).1[i]? =
          some { r with is_read := true, read_at := some now }) := by
  refine ⟨?_, ?_, ?_⟩
  · intro hread
    simp only [markAllNotificationsRead, if_neg hu]
    rw [List.getElem?_map, hget]
    simp [hread]
  · intro hunread hrec
    simp only [markAllNotificationsRead, if_neg hu]
    rw [List.getElem?_map, hget]
    simp [hunread, hrec]
  · intro hown hid
    simp only [markNotificationRead, if_neg hu, hown, if_pos]
    rw [List.getElem?_map, hget]
    simp [hid]

/-! ## Shutdown teardown -/

theorem lookupA_eq_none_iff {β : Type} (k : String) (l : List (String × β)) :
    lookupA k l = none ↔ k ∉ l.map Prod.fst := by
  induction l with
  | nil => simp [lookupA]
  | cons hd tl ih =>
    obtain ⟨k', v'⟩ := hd
    by_cases h : k' = k
    · subst h
      simp [lookupA]
    · rw [lookupA, if_neg h, List.map_cons, ih]
      constructor
      · intro hk hmem
        rcases List.mem_cons.mp hmem with h1 | h1
        · exact h h1.symm
        · exact hk h1
      · intro hk h1
        exact hk (List.mem_cons_of_mem _ h1)

theorem mem_map_fst_removeEntry {β : Type} {a k : String} {l : List (String × β)}
    (h : a ∈ (removeEntry k l).map Prod.fst) : a ∈ l.map Prod.fst ∧ a ≠ k := by
  induction l with
  | nil => simp [removeEntry] at h
  | cons hd tl ih =>
    obtain ⟨k', v'⟩ := hd
    by_cases h2 : k' = k
    · subst h2
      rw [removeEntry, if_pos rfl] at h
      have := ih h
      exact ⟨List.mem_cons_of_mem _ this.1, this.2⟩
    · rw [removeEntry, if_neg h2] at h
      simp only [List.map_cons, List.mem_cons] at h ⊢
      cases h with
      | inl hh => exact ⟨Or.inl hh, hh ▸ h2⟩
      | inr hh =>
        have := ih hh
        exact ⟨Or.inr this.1, this.2⟩

theorem cleanup_unsub_mono {st : HubState} {u : String} {s : Nat}
    (h : s ∈ st.unsubscribed) : s ∈ (cleanupNotificationChannel st u).unsubscribed := by
  unfold cleanupNotificationChannel
  cases hl : lookupA u st.notificationChannels with
  | none => simpa
  | some ch => simpa using Or.inl h

theorem foldl_cleanup_unsub_mono {s : Nat} (ks : List String) (st : HubState)
    (h : s ∈ st.unsubscribed) :
    s ∈ (ks.foldl cleanupNotificationChannel st).unsubscribed := by
  induction ks generalizing st with
  | nil => simpa
  | cons k ks ih => exact ih _ (cleanup_unsub_mono h)

theorem foldl_cleanup_empties (ks : List String) (st : HubState)
    (h : ∀ a, a ∈ st.notificationChannels.map Prod.fst → a ∈ ks) :
    (ks.foldl cleanupNotificationChannel st).notificationChannels = [] := by
  induction ks generalizing st with
  | nil =>
    cases hc : st.notificationChannels with
    | nil => simpa
    | cons e tl =>
      exact absurd (h e.1 (by rw [hc]; exact List.mem_cons_self _ _)) (List.not_mem_nil _)
  | cons k ks ih =>
    simp only [List.foldl_cons]
    apply ih
    intro a ha
    unfold cleanupNotificationChannel at ha
    cases hl : lookupA k st.notificationChannels with
    | none =>
      rw [hl] at ha
      have hk := (lookupA_eq_none_iff k st.notificationChannels).mp hl
      rcases List.mem_cons.mp (h a ha) with h1 | h1
      · exact absurd (h1 ▸ ha) hk
      · exact h1
    | some ch =>
      rw [hl] at ha
      simp only at ha
      have := mem_map_fst_removeEntry ha
      rcases List.mem_cons.mp (h a this.1) with h1 | h1
      · exact absurd h1 this.2
      · exact h1

theorem foldl_cleanup_unsubs (ks : List String) (st : HubState) (k : String)
    (ch : Channel) (hk : k ∈ ks) (hl : lookupA k st.notificationChannels = some ch) :
    ch.subId ∈ (ks.foldl cleanupNotificationChannel st).unsubscribed := by
  induction ks generalizing st with
  | nil => simp at hk
  | cons k' ks ih =>
    simp only [List.foldl_cons]
    by_cases he : k' = k
    · subst he
      apply foldl_cleanup_unsub_mono
      unfold cleanupNotificationChannel
      rw [hl]
      simp
    · rcases List.mem_cons.mp hk with h1 | h1
      · exact absurd h1.symm he
      · apply ih _ h1
        unfold cleanupNotificationChannel
        cases hl2 : lookupA k' st.notificationChannels with
        | none => simpa using hl
        | some ch2 =>
          simpa using (lookupA_removeEntry_ne st.notificationChannels
            (fun hh : k = k' => he hh.symm)).symm ▸ hl

theorem mem_lookupA {β : Type} {k : String} {v : β} {l : List (String × β)}
    (h : (k, v) ∈ l) (hwf : (l.map Prod.fst).Nodup) : lookupA k l = some v := by
  induction l with
  | nil => simp at h
  | cons hd tl ih =>
    obtain ⟨k', v'⟩ := hd
    simp only [List.map_cons, List.nodup_cons] at hwf
    rcases List.mem_cons.mp h with h1 | h1
    · injection h1 with h2 h3
      subst h2
      subst h3
      simp [lookupA]
    · have hne : ¬ k' = k := by
        intro hh
        subst hh
        exact hwf.1 (List.mem_map.mpr ⟨(k', v), h1, rfl⟩)
      rw [lookupA, if_neg hne]
      exact ih h1 hwf.2

/-- C9: on a termination signal (SIGTERM or SIGINT) the handler
synchronously tears down every channel remaining in the table before the
process may exit: afterwards the channel table is empty (no recipient has
a channel any more) and `unsubscribe()` has been called on every stored
channel's upstream subscription. -/
theorem sigterm_teardown (st : HubState)
    (hwf : (st.notificationChannels.map Prod.fst).Nodup) :
    (shutdownCleanup st).notificationChannels = []
    ∧ (∀ u, channelOf (shutdownCleanup st) u = none)
    ∧ ∀ e ∈ st.notificationChannels,
        e.2.subId ∈ (shutdownCleanup st).unsubscribed := by
  have hempty : (shutdownCleanup st).notificationChannels = [] :=
    foldl_cleanup_empties _ st (fun a ha => ha)
  refine ⟨hempty, ?_, ?_⟩
  · intro u
    rw [channelOf, hempty]
    rfl
  · intro e he
    exact foldl_cleanup_unsubs _ st e.1 e.2
      (List.mem_map.mpr ⟨e, he, rfl⟩) (mem_lookupA he hwf)

/-! ## Dangling channels created by polling endpoints -/

theorem create_sse_unchanged (st : HubState) (u : String) :
    (createNotificationChannel st u).1.sseClientsByUser = st.sseClientsByUser := by
  unfold createNotificationChannel
  cases lookupA u st.notificationChannels <;> rfl

theorem create_preserves_channel {st : HubState} {r : String} {ch : Channel}
    (u : String) (h : channelOf st r = some ch) :
    channelOf (createNotificationChannel st u).1 r = some ch := by
  by_cases he : u = r
  · subst he
    rw [createNotificationChannel_of_some h]
    exact h
  · unfold createNotificationChannel
    cases hl : lookupA u st.notificationChannels with
    | some ch2 => exact h
    | none =>
      simp only [channelOf] at h ⊢
      rw [lookupA_setEntry_ne _ _ (fun hh : r = u => he hh.symm)]
      exact h

theorem cleanup_sse_unchanged (st : HubState) (u : String) :
    (cleanupNotificationChannel st u).sseClientsByUser = st.sseClientsByUser := by
  unfold cleanupNotificationChannel
  cases lookupA u st.notificationChannels <;> rfl

theorem rtClose_eq_of_none {st : HubState} {u : String} {c : Nat}
    (h : lookupA u st.sseClientsByUser = none) :
    rtNotificationsClose st u c = st := by
  unfold rtNotificationsClose
  rw [h]

theorem rtClose_eq_of_some {st : HubState} {u : String} {c : Nat} {clients : List Nat}
    (h : lookupA u st.sseClientsByUser = some clients) :
    rtNotificationsClose st u c =
      (if (clients.erase c).isEmpty then
        cleanupNotificationChannel
          { st with sseClientsByUser := removeEntry u st.sseClientsByUser } u
      else
        { st with sseClientsByUser := setEntry u (clients.erase c) st.sseClientsByUser }) := by
  unfold rtNotificationsClose
  rw [h]

theorem cleanup_channelOf_ne {st : HubState} {u r : String} (hne : r ≠ u) :
    channelOf (cleanupNotificationChannel st u) r = channelOf st r := by
  unfold cleanupNotificationChannel
  cases hl : lookupA u st.notificationChannels with
  | none => rfl
  | some ch2 =>
    show lookupA r (removeEntry u st.notificationChannels) = _
    exact lookupA_removeEntry_ne _ hne

/-- A channel for `r` with no registered connection for `r` survives any
hub operation other than an SSE open for `r` itself and a termination
signal, and the registry for `r` stays empty. -/
theorem step_preserves_dangling {st : HubState} {r : String} {ch : Channel}
    (hch : channelOf st r = some ch) (hsse : lookupA r st.sseClientsByUser = none)
    (op : HubOp) (hop : ∀ c, op ≠ HubOp.rtOpen r c) (hsig : op ≠ HubOp.sigterm) :
    channelOf (stepState st op) r = some ch
    ∧ lookupA r (stepState st op).sseClientsByUser = none := by
  cases op with
  | rtOpen u c =>
    have hu : u ≠ r := fun hh => (hop c) (by rw [hh])
    by_cases hemp : u = ""
    · subst hemp
      simp only [stepState, rtNotificationsOpen, if_pos rfl]
      exact ⟨hch, hsse⟩
    · simp only [stepState, rtNotificationsOpen, if_neg hemp]
      constructor
      · apply create_preserves_channel
        exact hch
      · rw [create_sse_unchanged]
        simp only
        rw [lookupA_setEntry_ne _ _ (fun hh : r = u => hu hh.symm)]
        exact hsse
  | rtClose u c =>
    by_cases he : u = r
    · subst he
      simp only [stepState]
      rw [rtClose_eq_of_none hsse]
      exact ⟨hch, hsse⟩
    · simp only [stepState]
      cases hl : lookupA u st.sseClientsByUser with
      | none =>
        rw [rtClose_eq_of_none hl]
        exact ⟨hch, hsse⟩
      | some clients =>
        rw [rtClose_eq_of_some hl]
        by_cases hemp2 : (clients.erase c).isEmpty
        · rw [if_pos hemp2]
          constructor
          · rw [cleanup_channelOf_ne (fun hh : r = u => he hh.symm)]
            exact hch
          · rw [cleanup_sse_unchanged]
            show lookupA r (removeEntry u st.sseClientsByUser) = none
            rw [lookupA_removeEntry_ne _ (fun hh : r = u => he hh.symm)]
            exact hsse
        · rw [if_neg hemp2]
          refine ⟨hch, ?_⟩
          show lookupA r (setEntry u (clients.erase c) st.sseClientsByUser) = none
          rw [lookupA_setEntry_ne _ _ (fun hh : r = u => he hh.symm)]
          exact hsse
  | clientList u =>
    by_cases hemp : u = ""
    · simp only [stepState, if_pos hemp]
      exact ⟨hch, hsse⟩
    · simp only [stepState, if_neg hemp]
      exact ⟨create_preserves_channel u hch, by rw [create_sse_unchanged]; exact hsse⟩
  | employeeList u =>
    by_cases hemp : u = ""
    · simp only [stepState, if_pos hemp]
      exact ⟨hch, hsse⟩
    · simp only [stepState, if_neg hemp]
      exact ⟨create_preserves_channel u hch, by rw [create_sse_unchanged]; exact hsse⟩
  | adminSend rs =>
    simp only [stepState]
    induction rs generalizing st with
    | nil => exact ⟨hch, hsse⟩
    | cons u rs ih =>
      simp only [List.foldl_cons]
      exact ih (create_preserves_channel u hch)
        (by rw [create_sse_unchanged]; exact hsse)
        (fun c => by simp) (by simp)
  | dbChange chg => exact ⟨hch, hsse⟩
  | sigterm => exact absurd rfl hsig

/-- C10: the plain polling endpoints create channels and nothing but an
SSE lifecycle or shutdown removes them.  For a recipient `r` with no
registered streaming connection: (a) a `GET /api/client/notifications`
query for `r` creates a fresh upstream subscription when none exists,
(b) so does `GET /api/employee/notifications`, (c) the resulting channel
then survives every subsequent operation sequence containing no SSE open
for `r` and no termination signal — it is never torn down, because
teardown is triggered only by a registered connection's disconnect
emptying the registry set, which stays empty — and (d) only the shutdown
handler removes it. -/
theorem polling_channel_persistence (r : String) (hr : r ≠ "") :
    (∀ st : HubState, channelOf st r = none →
        channelOf (stepState st (HubOp.clientList r)) r =
          some { subId := st.nextSub, filterRecipient := r })
    ∧ (∀ st : HubState, channelOf st r = none →
        channelOf (stepState st (HubOp.employeeList r)) r =
          some { subId := st.nextSub, filterRecipient := r })
    ∧ (∀ (st : HubState) (ch : Channel) (ops : List HubOp),
        channelOf st r = some ch → lookupA r st.sseClientsByUser = none →
        (∀ c, HubOp.rtOpen r c ∉ ops) → HubOp.sigterm ∉ ops →
        channelOf (runTrace st ops) r = some ch)
    ∧ (∀ st : HubState, channelOf (stepState st HubOp.sigterm) r = none) := by
  refine ⟨?_, ?_, ?_, ?_⟩
  · intro st hnone
    simp only [stepState, if_neg hr]
    rw [createNotificationChannel_of_none hnone]
    simp [channelOf, lookupA_setEntry_self]
  · intro st hnone
    simp only [stepState, if_neg hr]
    rw [createNotificationChannel_of_none hnone]
    simp [channelOf, lookupA_setEntry_self]
  · intro st ch ops
    induction ops generalizing st with
    | nil => intro hch _ _ _; exact hch
    | cons op ops ih =>
      intro hch hsse hop hsig
      have hop1 : ∀ c, op ≠ HubOp.rtOpen r c := by
        intro c hh
        exact hop c (by rw [← hh]; exact List.mem_cons_self _ _)
      have hsig1 : op ≠ HubOp.sigterm := by
        intro hh
        exact hsig (by rw [← hh]; exact List.mem_cons_self _ _)
      have hstep := step_preserves_dangling hch hsse op hop1 hsig1
      exact ih _ hstep.1 hstep.2
        (fun c hmem => hop c (List.mem_cons_of_mem _ hmem))
        (fun hmem => hsig (List.mem_cons_of_mem _ hmem))
  · intro st
    rw [channelOf]
    have hempty : (shutdownCleanup st).notificationChannels = [] :=
      foldl_cleanup_empties _ st (fun a ha => ha)
    simp only [stepState, hempty]
    rfl

/-! ## Refcount correctness over register/unregister traces -/

theorem regInv_init (r : String) : RegInv r [] HubState.init := by
  refine ⟨rfl, by simp [channelOf, HubState.init, lookupA], ?_⟩
  intro ch hch
  simp [channelOf, HubState.init, lookupA] at hch

theorem clientsOf_of_inv {r : String} {regs : List Nat} {st : HubState}
    (h : lookupA r st.sseClientsByUser = (if regs.isEmpty then none else some regs)) :
    clientsOf st r = regs := by
  unfold clientsOf
  rw [h]
  cases regs <;> simp

theorem regInv_open {r : String} (hr : r ≠ "") {regs : List Nat} {c : Nat}
    {st : HubState} (hc : c ∉ regs) (hinv : RegInv r regs st) :
    RegInv r (regs ++ [c]) (stepState st (HubOp.rtOpen r c)) := by
  obtain ⟨hsse, hchan, hbound⟩ := hinv
  have hcl : clientsOf st r = regs := clientsOf_of_inv hsse
  simp only [stepState, rtNotificationsOpen, if_neg hr, hcl, if_neg hc]
  set st1 : HubState :=
    { st with sseClientsByUser := setEntry r (regs ++ [c]) st.sseClientsByUser } with hst1
  have hsse1 : (createNotificationChannel st1 r).1.sseClientsByUser = st1.sseClientsByUser :=
    create_sse_unchanged st1 r
  refine ⟨?_, ?_, ?_⟩
  · rw [hsse1]
    show lookupA r (setEntry r (regs ++ [c]) st.sseClientsByUser) = _
    rw [lookupA_setEntry_self]
    simp
  · rw [channelOf_create_self st1 r]
    simp
  · intro ch hch
    rw [channelOf_create_self st1 r] at hch
    have hch2 := Option.some.inj hch
    cases h1 : channelOf st1 r with
    | some ch0 =>
      rw [createNotificationChannel_of_some h1] at hch2 ⊢
      have hb := hbound ch0 h1
      subst hch2
      simpa using hb
    | none =>
      rw [createNotificationChannel_of_none h1] at hch2 ⊢
      subst hch2
      simp

theorem regInv_close {r : String} {regs : List Nat} {c : Nat} {st : HubState}
    (hc : c ∈ regs) (hinv : RegInv r regs st) :
    RegInv r (regs.erase c) (stepState st (HubOp.rtClose r c))
    ∧ ((regs.erase c).isEmpty = true →
        ∃ ch, channelOf st r = some ch
          ∧ channelOf (stepState st (HubOp.rtClose r c)) r = none
          ∧ ch.subId ∈ (stepState st (HubOp.rtClose r c)).unsubscribed
          ∧ (stepState st (HubOp.rtClose r c)).nextSub = st.nextSub) := by
  obtain ⟨hsse, hchan, hbound⟩ := hinv
  have hne : regs ≠ [] := fun hh => by simp [hh] at hc
  have hemp : regs.isEmpty = false := by
    cases regs with
    | nil => exact absurd rfl hne
    | cons a l => rfl
  rw [hemp] at hsse
  simp only [if_neg Bool.false_ne_true] at hsse
  have hsome : ∃ ch0, channelOf st r = some ch0 := by
    have := hchan.mpr hne
    cases hx : channelOf st r with
    | none => rw [hx] at this; simp at this
    | some ch0 => exact ⟨ch0, rfl⟩
  obtain ⟨ch0, hch0⟩ := hsome
  simp only [stepState]
  rw [rtClose_eq_of_some hsse]
  by_cases he : (regs.erase c).isEmpty
  · rw [if_pos he]
    set st1 : HubState :=
      { st with sseClientsByUser := removeEntry r st.sseClientsByUser } with hst1
    have hch1 : lookupA r st1.notificationChannels = some ch0 := hch0
    have hclean : cleanupNotificationChannel st1 r =
        { st1 with
            notificationChannels := removeEntry r st1.notificationChannels,
            unsubscribed := st1.unsubscribed ++ [ch0.subId] } := by
      unfold cleanupNotificationChannel
      rw [hch1]
    rw [hclean]
    have herased : regs.erase c = [] := by
      cases hx : regs.erase c with
      | nil => rfl
      | cons a l => rw [hx] at he; simp [List.isEmpty] at he
    constructor
    · refine ⟨?_, ?_, ?_⟩
      · show lookupA r (removeEntry r st.sseClientsByUser) = _
        rw [lookupA_removeEntry_self, he]
        simp
      · show (lookupA r (removeEntry r st.notificationChannels)).isSome ↔ _
        rw [lookupA_removeEntry_self, herased]
        simp
      · intro ch hch
        have hcontr : lookupA r (removeEntry r st.notificationChannels) = some ch := hch
        rw [lookupA_removeEntry_self] at hcontr
        exact absurd hcontr (by simp)
    · intro _
      refine ⟨ch0, hch0, ?_, by simp, rfl⟩
      show lookupA r (removeEntry r st.notificationChannels) = none
      exact lookupA_removeEntry_self r st.notificationChannels
  · rw [if_neg he]
    refine ⟨⟨?_, ?_, ?_⟩, fun hh => absurd hh he⟩
    · show lookupA r (setEntry r (regs.erase c) st.sseClientsByUser) = _
      rw [lookupA_setEntry_self]
      rw [if_neg (fun hh => he hh)]
    · show (channelOf st r).isSome ↔ _
      rw [hch0]
      constructor
      · intro _ hh
        rw [hh] at he
        exact he rfl
      · intro _
        rfl
    · intro ch hch
      exact hbound ch hch

theorem regInv_trace (r : String) (hr : r ≠ "") :
    ∀ (ops : List HubOp) (regs : List Nat) (st : HubState),
    regTraceValid r regs ops = true → RegInv r regs st →
    RegInv r (simRegs regs ops) (runTrace st ops) := by
  intro ops
  induction ops with
  | nil => intro regs st _ hinv; exact hinv
  | cons op ops ih =>
    intro regs st hv hinv
    cases op with
    | rtOpen u c =>
      simp only [regTraceValid, Bool.and_eq_true] at hv
      obtain ⟨⟨hu, hcnot⟩, hrest⟩ := hv
      have hu2 : u = r := by simpa using hu
      have hc2 : c ∉ regs := by simpa using hcnot
      subst hu2
      exact ih _ _ hrest (regInv_open hr hc2 hinv)
    | rtClose u c =>
      simp only [regTraceValid, Bool.and_eq_true] at hv
      obtain ⟨⟨hu, hcmem⟩, hrest⟩ := hv
      have hu2 : u = r := by simpa using hu
      have hc2 : c ∈ regs := by simpa using hcmem
      subst hu2
      exact ih _ _ hrest (regInv_close hc2 hinv).1
    | clientList u => simp [regTraceValid] at hv
    | employeeList u => simp [regTraceValid] at hv
    | adminSend rs => simp [regTraceValid] at hv
    | dbChange chg => simp [regTraceValid] at hv
    | sigterm => simp [regTraceValid] at hv

theorem simRegs_length (r : String) :
    ∀ (ops : List HubOp) (regs : List Nat), regTraceValid r regs ops = true →
    (simRegs regs ops).length + countCloses r ops = regs.length + countOpens r ops := by
  intro ops
  induction ops with
  | nil => intro regs _; simp [simRegs, countOpens, countCloses]
  | cons op ops ih =>
    intro regs hv
    cases op with
    | rtOpen u c =>
      simp only [regTraceValid, Bool.and_eq_true] at hv
      obtain ⟨⟨hu, _⟩, hrest⟩ := hv
      have hu2 : u = r := by simpa using hu
      subst hu2
      have hih := ih (regs ++ [c]) hrest
      simp only [simRegs, countOpens, countCloses] at hih ⊢
      simp at hih ⊢
      omega
    | rtClose u c =>
      simp only [regTraceValid, Bool.and_eq_true] at hv
      obtain ⟨⟨hu, hcmem⟩, hrest⟩ := hv
      have hu2 : u = r := by simpa using hu
      subst hu2
      have hc2 : c ∈ regs := by simpa using hcmem
      have hlen := List.length_erase_of_mem hc2
      have hpos : 0 < regs.length := List.length_pos.mpr (fun hh => by simp [hh] at hc2)
      have hih := ih (regs.erase c) hrest
      simp only [simRegs, countOpens, countCloses] at hih ⊢
      simp at hih ⊢
      omega
    | clientList u => simp [regTraceValid] at hv
    | employeeList u => simp [regTraceValid] at hv
    | adminSend rs => simp [regTraceValid] at hv
    | dbChange chg => simp [regTraceValid] at hv
    | sigterm => simp [regTraceValid] at hv

theorem runTrace_append (xs ys : List HubOp) (st : HubState) :
    runTrace st (xs ++ ys) = runTrace (runTrace st xs) ys := by
  induction xs generalizing st with
  | nil => rfl
  | cons op xs ih =>
    show runTrace (stepState st op) (xs ++ ys) =
      runTrace (runTrace (stepState st op) xs) ys
    exact ih _

theorem regTraceValid_append (r : String) :
    ∀ (xs ys : List HubOp) (regs : List Nat),
    regTraceValid r regs (xs ++ ys) =
      (regTraceValid r regs xs && regTraceValid r (simRegs regs xs) ys) := by
  intro xs
  induction xs with
  | nil => intro ys regs; simp [regTraceValid, simRegs]
  | cons op xs ih =>
    intro ys regs
    cases op with
    | rtOpen u c =>
      simp only [List.cons_append, regTraceValid, simRegs, List.append_eq]
      rw [ih ys (regs ++ [c])]
      simp [Bool.and_assoc]
    | rtClose u c =>
      simp only [List.cons_append, regTraceValid, simRegs, List.append_eq]
      rw [ih ys (regs.erase c)]
      simp [Bool.and_assoc]
    | clientList u => simp [regTraceValid]
    | employeeList u => simp [regTraceValid]
    | adminSend rs => simp [regTraceValid]
    | dbChange chg => simp [regTraceValid]
    | sigterm => simp [regTraceValid]

/-- C1: refcount correctness and teardown on drain.  Over any
transport-producible sequence of SSE opens (registrations) and closes
(unregistrations) for one recipient `r` starting from the initial state,
the channel — and with it the upstream subscription — exists if and only
if the number of registrations so far exceeds the number of
unregistrations; and when the close of the last remaining connection is
appended, the channel that existed before it is gone afterwards, its
upstream subscription has been unsubscribed, and an
`ensure_channel`/`createNotificationChannel` call right after would
allocate a subscription handle different from the torn-down one (a fresh
subscription). -/
theorem refcount_correctness (r : String) (hr : r ≠ "") (ops : List HubOp)
    (hv : regTraceValid r [] ops = true) :
    ((channelOf (runTrace HubState.init ops) r).isSome ↔
        countCloses r ops < countOpens r ops)
    ∧ ∀ c, regTraceValid r [] (ops ++ [HubOp.rtClose r c]) = true →
        countOpens r ops = countCloses r ops + 1 →
        ∃ ch, channelOf (runTrace HubState.init ops) r = some ch
          ∧ channelOf (runTrace HubState.init (ops ++ [HubOp.rtClose r c])) r = none
          ∧ ch.subId ∈ (runTrace HubState.init (ops ++ [HubOp.rtClose r c])).unsubscribed
          ∧ (createNotificationChannel
                (runTrace HubState.init (ops ++ [HubOp.rtClose r c])) r).2.subId
              ≠ ch.subId := by
  have hinvF := regInv_trace r hr ops [] HubState.init hv (regInv_init r)
  have hcount := simRegs_length r ops [] hv
  simp only [List.length_nil, Nat.zero_add] at hcount
  constructor
  · rw [hinvF.2.1]
    constructor
    · intro hne
      have : 0 < (simRegs [] ops).length := List.length_pos.mpr hne
      omega
    · intro hlt
      intro hh
      rw [hh] at hcount
      simp at hcount
      omega
  · intro c hv2 hdrain
    have hlen1 : (simRegs [] ops).length = 1 := by omega
    rw [regTraceValid_append] at hv2
    simp only [Bool.and_eq_true] at hv2
    have hcmem : c ∈ simRegs [] ops := by
      have := hv2.2
      simp only [regTraceValid, Bool.and_eq_true] at this
      simpa using this.1.2
    have hsim : simRegs [] ops = [c] := by
      obtain ⟨a, ha⟩ := List.length_eq_one.mp hlen1
      rw [ha] at hcmem ⊢
      simp at hcmem
      rw [hcmem]
    have hclose := regInv_close (by rw [hsim]; exact List.mem_singleton_self c) hinvF
    have herased : ((simRegs [] ops).erase c).isEmpty = true := by
      rw [hsim]
      simp [List.erase_cons_head]
    obtain ⟨ch, hch, hnone, hunsub, hnext⟩ := hclose.2 herased
    refine ⟨ch, hch, ?_, ?_, ?_⟩
    · rw [runTrace_append]
      exact hnone
    · rw [runTrace_append]
      exact hunsub
    · rw [runTrace_append]
      show (createNotificationChannel (stepState (runTrace HubState.init ops)
        (HubOp.rtClose r c)) r).2.subId ≠ ch.subId
      rw [createNotificationChannel_of_none hnone]
      have hb := hinvF.2.2 ch hch
      rw [hnext]
      intro hh
      simp at hh
      omega

/-! ## Ready-before-fanout -/

theorem connFresh_init (conn : Nat) : ConnFresh HubState.init conn := by
  intro u
  simp [clientsOf, HubState.init, lookupA]

theorem clientsOf_setEntry (st : HubState) (u u' : String) (v : List Nat) :
    clientsOf { st with sseClientsByUser := setEntry u v st.sseClientsByUser } u' =
      (if u' = u then v else clientsOf st u') := by
  by_cases h : u' = u
  · subst h
    simp [clientsOf, lookupA_setEntry_self]
  · simp only [clientsOf, if_neg h]
    rw [lookupA_setEntry_ne _ _ h]

theorem foldl_create_sse_unchanged (rs : List String) (st : HubState) :
    (rs.foldl (fun s u => (createNotificationChannel s u).1) st).sseClientsByUser =
      st.sseClientsByUser := by
  induction rs generalizing st with
  | nil => rfl
  | cons u rs ih =>
    simp only [List.foldl_cons]
    rw [ih, create_sse_unchanged]

theorem shutdown_sse_unchanged (st : HubState) :
    (shutdownCleanup st).sseClientsByUser = st.sseClientsByUser := by
  unfold shutdownCleanup
  generalize st.notificationChannels.map Prod.fst = ks
  induction ks generalizing st with
  | nil => rfl
  | cons k ks ih =>
    simp only [List.foldl_cons]
    rw [ih, cleanup_sse_unchanged]

theorem clientsOf_open_state (st : HubState) {u : String} (hu : u ≠ "") (c : Nat)
    (u' : String) :
    clientsOf (stepState st (HubOp.rtOpen u c)) u' =
      (if u' = u then
        (if c ∈ clientsOf st u then clientsOf st u else clientsOf st u ++ [c])
       else clientsOf st u') := by
  simp only [stepState, rtNotificationsOpen, if_neg hu]
  have h1 : ∀ v : List Nat, clientsOf ((createNotificationChannel
      { st with sseClientsByUser := setEntry u v st.sseClientsByUser } u).1) u' =
      clientsOf { st with sseClientsByUser := setEntry u v st.sseClientsByUser } u' := by
    intro v
    unfold clientsOf
    rw [create_sse_unchanged]
  rw [h1, clientsOf_setEntry]

theorem connFresh_step {st : HubState} {conn : Nat} (h : ConnFresh st conn)
    (op : HubOp) (hop : ∀ u, op ≠ HubOp.rtOpen u conn) :
    ConnFresh (stepState st op) conn := by
  cases op with
  | rtOpen u c =>
    have hc : c ≠ conn := fun hh => hop u (by rw [hh])
    by_cases hemp : u = ""
    · subst hemp
      simp only [stepState, rtNotificationsOpen, if_pos rfl]
      exact h
    · intro u'
      rw [clientsOf_open_state st hemp c u']
      by_cases hu : u' = u
      · rw [if_pos hu]
        by_cases hcm : c ∈ clientsOf st u
        · rw [if_pos hcm]
          exact h u
        · rw [if_neg hcm]
          intro hmem
          rcases List.mem_append.mp hmem with h1 | h1
          · exact h u h1
          · simp at h1
            exact hc h1.symm
      · rw [if_neg hu]
        exact h u'
  | rtClose u c =>
    simp only [stepState]
    cases hl : lookupA u st.sseClientsByUser with
    | none =>
      rw [rtClose_eq_of_none hl]
      exact h
    | some clients =>
      rw [rtClose_eq_of_some hl]
      by_cases hemp2 : (clients.erase c).isEmpty
      · rw [if_pos hemp2]
        intro u'
        unfold clientsOf
        rw [cleanup_sse_unchanged]
        by_cases hu : u' = u
        · subst hu
          show conn ∉ (lookupA u' (removeEntry u' st.sseClientsByUser)).getD []
          rw [lookupA_removeEntry_self]
          simp
        · show conn ∉ (lookupA u' (removeEntry u st.sseClientsByUser)).getD []
          rw [lookupA_removeEntry_ne _ hu]
          exact h u'
      · rw [if_neg hemp2]
        intro u'
        rw [clientsOf_setEntry]
        by_cases hu : u' = u
        · rw [if_pos hu]
          intro hmem
          have hsub := List.mem_of_mem_erase hmem
          have hin : conn ∈ clientsOf st u := by
            unfold clientsOf
            rw [hl]
            exact hsub
          exact h u hin
        · rw [if_neg hu]
          exact h u'
  | clientList u =>
    intro u'
    unfold clientsOf
    simp only [stepState]
    by_cases hemp : u = ""
    · rw [if_pos hemp]
      exact h u'
    · rw [if_neg hemp, create_sse_unchanged]
      exact h u'
  | employeeList u =>
    intro u'
    unfold clientsOf
    simp only [stepState]
    by_cases hemp : u = ""
    · rw [if_pos hemp]
      exact h u'
    · rw [if_neg hemp, create_sse_unchanged]
      exact h u'
  | adminSend rs =>
    intro u'
    unfold clientsOf
    simp only [stepState]
    rw [foldl_create_sse_unchanged]
    exact h u'
  | dbChange chg => exact h
  | sigterm =>
    intro u'
    unfold clientsOf
    simp only [stepState]
    rw [shutdown_sse_unchanged]
    exact h u'

theorem writesTo_append (conn : Nat) (a b : List (Nat × SseEvent)) :
    writesTo conn (a ++ b) = writesTo conn a ++ writesTo conn b := by
  unfold writesTo
  rw [List.filter_append, List.map_append]

theorem traceWrites_append (xs ys : List HubOp) (st : HubState) :
    traceWrites st (xs ++ ys) = traceWrites st xs ++ traceWrites (runTrace st xs) ys := by
  induction xs generalizing st with
  | nil => rfl
  | cons op xs ih =>
    show stepWrites st op ++ traceWrites (stepState st op) (xs ++ ys) = _
    rw [ih]
    simp [traceWrites, runTrace, List.append_assoc]

theorem stepWrites_fresh {st : HubState} {conn : Nat} (h : ConnFresh st conn)
    (op : HubOp) (hop : ∀ u, op ≠ HubOp.rtOpen u conn) :
    writesTo conn (stepWrites st op) = [] := by
  cases op with
  | rtOpen u c =>
    have hc : c ≠ conn := fun hh => hop u (by rw [hh])
    by_cases hemp : u = ""
    · simp [stepWrites, rtNotificationsOpen, hemp, writesTo]
    · simp [stepWrites, rtNotificationsOpen, hemp, writesTo, List.filter_cons, hc]
  | dbChange chg =>
    simp only [stepWrites]
    unfold writesTo
    rw [List.map_eq_nil_iff, List.filter_eq_nil_iff]
    intro w hw
    simp only [decide_eq_true_eq]
    intro hconn
    have hmem : (conn, w.2) ∈ dispatchChange st chg := by
      rw [show (conn, w.2) = w from Prod.ext hconn.symm rfl]
      exact hw
    exact h chg.recipient (mem_dispatchChange hmem)
  | rtClose u c => rfl
  | clientList u => rfl
  | employeeList u => rfl
  | adminSend rs => rfl
  | sigterm => rfl

theorem traceWrites_fresh {conn : Nat} :
    ∀ (ops : List HubOp) (st : HubState), ConnFresh st conn →
    (∀ u, HubOp.rtOpen u conn ∉ ops) →
    writesTo conn (traceWrites st ops) = [] := by
  intro ops
  induction ops with
  | nil => intro st _ _; rfl
  | cons op ops ih =>
    intro st hfresh hnot
    have hop : ∀ u, op ≠ HubOp.rtOpen u conn := by
      intro u hh
      exact hnot u (by rw [← hh]; exact List.mem_cons_self _ _)
    show writesTo conn (stepWrites st op ++ traceWrites (stepState st op) ops) = []
    rw [writesTo_append, stepWrites_fresh hfresh op hop,
      ih (stepState st op) (connFresh_step hfresh op hop)
        (fun u hmem => hnot u (List.mem_cons_of_mem _ hmem))]
    rfl

/-- C5: ready-before-fanout.  A connection `conn` freshly opened for
recipient `r` (it was never opened before) receives the `ready` event as
the very first event on its stream: the open handler itself, which
registers the connection and writes `ready` in the same synchronous
step, emits exactly that one write, and every fan-out triggered by later
operations lands strictly after it in the connection's write log, while
nothing could write to the connection before it was registered. -/
theorem ready_before_fanout (ops1 ops2 : List HubOp) (r : String) (conn : Nat)
    (hr : r ≠ "") (hfresh : ∀ u, HubOp.rtOpen u conn ∉ ops1) :
    (writesTo conn
        (traceWrites HubState.init (ops1 ++ HubOp.rtOpen r conn :: ops2))).head? =
      some (SseEvent.ready r)
    ∧ (rtNotificationsOpen (runTrace HubState.init ops1) r conn).writes =
        [(conn, SseEvent.ready r)] := by
  have hwopen : (rtNotificationsOpen (runTrace HubState.init ops1) r conn).writes =
      [(conn, SseEvent.ready r)] := by
    simp [rtNotificationsOpen, hr]
  refine ⟨?_, hwopen⟩
  rw [traceWrites_append, writesTo_append]
  rw [traceWrites_fresh ops1 HubState.init (connFresh_init conn) hfresh]
  show (writesTo conn (stepWrites (runTrace HubState.init ops1) (HubOp.rtOpen r conn)
      ++ traceWrites (stepState (runTrace HubState.init ops1)
        (HubOp.rtOpen r conn)) ops2)).head? = _
  rw [writesTo_append]
  have : writesTo conn (stepWrites (runTrace HubState.init ops1)
      (HubOp.rtOpen r conn)) = [SseEvent.ready r] := by
    simp only [stepWrites, hwopen]
    simp [writesTo]
  rw [this]
  rfl

/-! ## Concrete witnesses -/

/-- Witness for C1 at the one-open trace for `u1`: the hypotheses hold
and the channel then exists (1 registration > 0 unregistrations). -/
theorem refcount_correctness_witness :
    (("u1" : String) ≠ "")
    ∧ regTraceValid "u1" [] [HubOp.rtOpen "u1" 0] = true
    ∧ ((channelOf (runTrace HubState.init [HubOp.rtOpen "u1" 0]) "u1").isSome ↔
        countCloses "u1" [HubOp.rtOpen "u1" 0] < countOpens "u1" [HubOp.rtOpen "u1" 0]) :=
  ⟨by decide, by decide,
    (refcount_correctness "u1" (by decide) [HubOp.rtOpen "u1" 0] (by decide)).1⟩

/-- Witness for C2 at the initial state and recipient `u1`. -/
theorem createChannel_idempotent_witness :
    (HubState.init.notificationChannels.map Prod.fst).Nodup
    ∧ countKey "u1" (createNotificationChannel HubState.init "u1").1.notificationChannels = 1 :=
  ⟨by decide, (createChannel_idempotent HubState.init "u1" (by decide)).2.1⟩

/-- Witness for C3 at a state with clients 5 and 6 registered for `u1`:
the broadcast attempts exactly one write per client. -/
theorem fanout_completeness_witness :
    lookupA "u1" fanoutState.sseClientsByUser = some [5, 6]
    ∧ broadcastToUser fanoutState "u1" (SseEvent.ready "u1") =
        [5, 6].map (fun c => (c, SseEvent.ready "u1")) :=
  ⟨by decide,
    (fanout_completeness fanoutState "u1" [5, 6] (SseEvent.ready "u1")
      (fun c => decide (c = 5)) (by decide)).1⟩

/-- Witness for C4: an insert for `u1` never reaches connection 7,
registered only for `u2`. -/
theorem recipient_isolation_witness :
    (DbChange.ins "u1" "row").recipient = "u1"
    ∧ (("u2" : String) ≠ "u1")
    ∧ (7 : Nat) ∈ clientsOf isolationState "u2"
    ∧ (7 : Nat) ∉ clientsOf isolationState "u1"
    ∧ ∀ ev : SseEvent, (7, ev) ∉ dispatchChange isolationState (DbChange.ins "u1" "row") :=
  ⟨by decide, by decide, by decide, by decide,
    recipient_isolation isolationState "u1" "u2" 7 (DbChange.ins "u1" "row")
      (by decide) (by decide) (by decide) (by decide)⟩

/-- Witness for C5 at the trace that opens connection 5 for `u1` first:
its first received event is `ready`. -/
theorem ready_before_fanout_witness :
    (("u1" : String) ≠ "")
    ∧ (∀ u, HubOp.rtOpen u 5 ∉ ([] : List HubOp))
    ∧ (writesTo 5
        (traceWrites HubState.init ([] ++ HubOp.rtOpen "u1" 5 :: []))).head? =
        some (SseEvent.ready "u1") :=
  ⟨by decide, by simp,
    (ready_before_fanout [] [] "u1" 5 (by decide) (by simp)).1⟩

/-- Witness for C6: the admin maintenance send to `u1` yields priority
"high" on the inserted row. -/
theorem priority_derivation_witness :
    adminSendNotification ["u1"] "maintenance" "m" none = some [maintenancePayload]
    ∧ maintenancePayload ∈ [maintenancePayload]
    ∧ (insertRow maintenancePayload 0 0).priority = "high" :=
  ⟨by decide, by decide,
    (priority_derivation 0 0).2.2.2.2.1 ["u1"] "m" none [maintenancePayload]
      maintenancePayload (by decide) (by decide)⟩

/-- Witness for C7's amended theorem at the already-read row: bulk
read-all leaves it untouched. -/
theorem readAt_semantics_witness :
    (("u1" : String) ≠ "")
    ∧ ([alreadyReadRow][0]? = some alreadyReadRow)
    ∧ (alreadyReadRow.is_read = true →
        (markAllNotificationsRead [alreadyReadRow] "u1" 42).1[0]? = some alreadyReadRow) :=
  ⟨by decide, by decide,
    (readAt_semantics [alreadyReadRow] "u1" 42 1 0 alreadyReadRow
      (by decide) (by decide)).1⟩

/-- Witness for C9 at a state holding one channel for `u1`. -/
theorem sigterm_teardown_witness :
    (shutdownState.notificationChannels.map Prod.fst).Nodup
    ∧ (shutdownCleanup shutdownState).notificationChannels = [] :=
  ⟨by decide, (sigterm_teardown shutdownState (by decide)).1⟩

/-- Witness for C10: a client notification-list query for `u1` from the
initial state creates the channel with the first subscription handle. -/
theorem polling_channel_persistence_witness :
    (("u1" : String) ≠ "")
    ∧ channelOf (stepState HubState.init (HubOp.clientList "u1")) "u1" =
        some { subId := 0, filterRecipient := "u1" } :=
  ⟨by decide,
    (polling_channel_persistence "u1" (by decide)).1 HubState.init (by decide)⟩
